import Mathlib

/-!
Verification development for the multi-LLM aggregator server
(`src/week-4/multi-llm-aggregator/server.js`).

The server is embedded shallowly:

* JSON values (as produced by `JSON.parse`) are modelled by the inductive
  type `Json`, together with JavaScript member-access semantics
  (`Json.member`, optional chaining via `optMember`), truthiness
  (`Json.falsy`), string coercion (`Json.jsToString`) and the `||` operator
  (`jsOrElse`, `jsOrS`, `jsOrOpt`).
* The outcome of the single outbound `fetch` an adapter may perform is an
  environment-supplied oracle (`FetchOutcome`): the network layer is outside
  the program, so it is universally quantified in all theorems.  The request
  body the adapter builds does not influence the adapter's own result and is
  not modelled.
* Each adapter (`queryOpenAI`, `queryGemini`, `queryAnthropic`) returns an
  `AdapterRun`: an `Except` carrying either the normalized result or the
  message of a thrown exception, plus the number of network calls issued.
* `queryProvider` is the dispatcher with its call-site `try/catch`
  (`catchRun`), `handleQueryE` is the `POST /api/query` handler after JSON
  parsing (a thrown `TypeError` is an `Except.error`, which the server's
  outer `try/catch` turns into the 500 response in `handleQuery`).
* The static file resolver's path arithmetic (`path.normalize`,
  `path.join` of Node's posix path module, and the `replace(/^\.\.(\/|\\)/,'')`
  call) is embedded over character lists (`posixNormalize`, `posixJoin`,
  `stripDotDot`, `resolveStatic`), and the filesystem is an abstract partial
  map in `serveStatic`.
-/

set_option linter.unusedVariables false

/-- JSON values, as produced by `JSON.parse` on the request body or on a
vendor response.  Numbers are modelled as integers (no claim depends on
non-integral numbers). -/
inductive Json where
  | null
  | bool (b : Bool)
  | num (n : Int)
  | str (s : String)
  | arr (elems : List Json)
  | obj (fields : List (String × Json))

/-- First-match lookup in a JS object's field list.  (`JSON.parse` never
produces duplicate keys, so first-match equals last-match on its output.) -/
def lookupField : List (String × Json) → String → Option Json
  | [], _ => none
  | (k, v) :: rest, key => if k = key then some v else lookupField rest key

/-- JS array/string indexing: a property key hits index `i < len` iff it is
the canonical decimal numeral for `i`. -/
def canonIndex (key : String) (len : Nat) : Option Nat :=
  (List.range len).find? (fun i => toString i == key)

/-- JS member access `j[key]` (`ToPropertyKey` already applied).  Reading a
property of `null` throws a `TypeError`; reading an absent property of any
other value yields `undefined` (`none`). -/
def Json.member : Json → String → Except String (Option Json)
  | .null, key => .error ("TypeError: Cannot read properties of null (reading " ++ key ++ ")")
  | .obj fields, key => .ok (lookupField fields key)
  | .arr elems, key =>
      if key = "length" then .ok (some (.num (Int.ofNat elems.length)))
      else .ok (match canonIndex key elems.length with
        | some i => elems[i]?
        | none => none)
  | .str s, key =>
      if key = "length" then .ok (some (.num (Int.ofNat s.length)))
      else .ok (match canonIndex key s.length with
        | some i => (s.toList[i]?).map (fun c => Json.str (String.mk [c]))
        | none => none)
  | .bool _, _ => .ok none
  | .num _, _ => .ok none

/-- Optional-chained member access `x?.[key]` / `x?.key`: a nullish receiver
(`undefined` or `null`) short-circuits to `undefined` instead of throwing. -/
def optMember (o : Option Json) (key : String) : Except String (Option Json) :=
  match o with
  | none => .ok none
  | some .null => .ok none
  | some j => j.member key

/-- `x?.trim()`: nullish short-circuits, a string is trimmed, any other
value throws (`x.trim` is not a function). -/
def optTrim : Option Json → Except String (Option String)
  | none => .ok none
  | some .null => .ok none
  | some (.str s) => .ok (some s.trim)
  | some _ => .error "TypeError: trim is not a function"

mutual

/-- The string an element contributes to `Array.prototype.join`:
`null`/`undefined` become empty, arrays flatten with commas, plain objects
become `[object Object]`. -/
def Json.toJoinString : Json → String
  | .null => ""
  | .bool b => if b then "true" else "false"
  | .num n => toString n
  | .str s => s
  | .arr elems => Json.joinComma elems
  | .obj _ => "[object Object]"

/-- `Array.prototype.toString`, i.e. `join(",")`. -/
def Json.joinComma : List Json → String
  | [] => ""
  | [j] => Json.toJoinString j
  | j :: rest => Json.toJoinString j ++ "," ++ Json.joinComma rest

end

/-- JS `String(v)` / template-literal coercion. -/
def Json.jsToString : Json → String
  | .null => "null"
  | .bool b => if b then "true" else "false"
  | .num n => toString n
  | .str s => s
  | .arr elems => Json.joinComma elems
  | .obj _ => "[object Object]"

/-- JS falsiness of a JSON value (`undefined` is handled at `Option` level). -/
def Json.falsy : Json → Bool
  | .null => true
  | .bool b => !b
  | .num n => n == 0
  | .str s => s == ""
  | .arr _ => false
  | .obj _ => false

/-- Truthiness of a possibly-`undefined` value. -/
def jsTruthyO : Option Json → Bool
  | none => false
  | some j => !j.falsy

/-- JS `x || d` on a possibly-`undefined` JSON value. -/
def jsOrElse (o : Option Json) (d : Json) : Json :=
  match o with
  | none => d
  | some j => if j.falsy then d else j

/-- JS `s || fb` for strings (`""` is falsy). -/
def jsOrS (s fb : String) : String :=
  if s = "" then fb else s

/-- JS `x || fb` where `x` is `undefined` or a string. -/
def jsOrOpt (o : Option String) (fb : String) : String :=
  match o with
  | none => fb
  | some s => if s = "" then fb else s

/-- `arr.map((e) => e.text)` over a JS array: property access on a `null`
element throws, otherwise each element yields an optional value. -/
def mapTexts : List Json → Except String (List (Option Json))
  | [] => .ok []
  | j :: rest =>
    match j.member "text" with
    | .error e => .error e
    | .ok t =>
      match mapTexts rest with
      | .error e => .error e
      | .ok ts => .ok (t :: ts)

/-- `mapped.join('\n')` on the result of `mapTexts`. -/
def joinLine (parts : List (Option Json)) : String :=
  String.intercalate "\n" (parts.map (fun o =>
    match o with
    | none => ""
    | some j => j.toJoinString))

/-- `data.choices?.[0]?.message?.content?.trim()` (server.js line 169). -/
def openaiExtract (data : Json) : Except String (Option String) :=
  match data.member "choices" with
  | .error e => .error e
  | .ok choices =>
  match optMember choices "0" with
  | .error e => .error e
  | .ok c0 =>
  match optMember c0 "message" with
  | .error e => .error e
  | .ok msg =>
  match optMember msg "content" with
  | .error e => .error e
  | .ok content => optTrim content

/-- `data.candidates?.[0]?.content?.parts?.map((part) => part.text).join('\n')?.trim()`
(server.js line 212).  A nullish `parts` short-circuits the whole tail of the
chain; a non-array `parts` throws at `.map`. -/
def geminiExtract (data : Json) : Except String (Option String) :=
  match data.member "candidates" with
  | .error e => .error e
  | .ok candidates =>
  match optMember candidates "0" with
  | .error e => .error e
  | .ok c0 =>
  match optMember c0 "content" with
  | .error e => .error e
  | .ok content =>
  match optMember content "parts" with
  | .error e => .error e
  | .ok parts =>
  match parts with
  | none => .ok none
  | some .null => .ok none
  | some (.arr elems) =>
      match mapTexts elems with
      | .error e => .error e
      | .ok texts => .ok (some ((joinLine texts).trim))
  | some _ => .error "TypeError: map is not a function"

/-- `data.content?.map((entry) => entry.text).join('\n')?.trim()`
(server.js line 261). -/
def anthropicExtract (data : Json) : Except String (Option String) :=
  match data.member "content" with
  | .error e => .error e
  | .ok content =>
  match content with
  | none => .ok none
  | some .null => .ok none
  | some (.arr elems) =>
      match mapTexts elems with
      | .error e => .error e
      | .ok texts => .ok (some ((joinLine texts).trim))
  | some _ => .error "TypeError: map is not a function"

/-- The four statuses a `NormalizedResult` can carry. -/
inductive ResStatus where
  | success
  | missing_credentials
  | unsupported
  | error
deriving DecidableEq

/-- The uniform `{ provider, status, message, raw? }` record every adapter
produces.  For a non-string provider identifier the server would store the
raw value; it is only observed stringified (as an object key / in the
message), so `provider` is kept as the coerced string. -/
structure NormalizedResult where
  provider : String
  status : ResStatus
  message : String
  raw : Option Json

/-- One adapter invocation: either a normalized result or the message of a
thrown exception, plus the number of outbound network calls it issued. -/
structure AdapterRun where
  result : Except String NormalizedResult
  calls : Nat

/-- A resolved `fetch` response: HTTP status, the value of `response.text()`
and the outcome of `response.json()` (which throws on malformed JSON). -/
structure FetchResponse where
  status : Nat
  textBody : String
  jsonBody : Except String Json

/-- `response.ok` per the fetch standard: status in the inclusive range
200–299. -/
def FetchResponse.okFlag (r : FetchResponse) : Bool :=
  decide (200 ≤ r.status) && decide (r.status ≤ 299)

/-- Environment-supplied outcome of the single outbound `fetch` an adapter
may perform: the promise either rejects (network failure) or resolves. -/
inductive FetchOutcome where
  | reject (msg : String)
  | resp (r : FetchResponse)

/-- The process environment variables consulted by the adapters. -/
structure Env where
  openai : Option String
  gemini : Option String
  anthropic : Option String

/-- `queryOpenAI` (server.js lines 130–177).  The request body built from
`prompt` and `config.model` does not influence the adapter's result and is
not modelled. -/
def queryOpenAI (prompt : String) (config : Json) (env : Env) (fo : FetchOutcome) : AdapterRun :=
  match config.member "apiKey" with
  | .error e => ⟨.error e, 0⟩
  | .ok ck =>
    let apiKey := if jsTruthyO ck then ck else env.openai.map Json.str
    if jsTruthyO apiKey = false then
      ⟨.ok ⟨"openai", .missing_credentials, "OPENAI_API_KEY is not set", none⟩, 0⟩
    else
      match fo with
      | .reject m => ⟨.error m, 1⟩
      | .resp r =>
        if r.okFlag = false then
          ⟨.error ("OpenAI error: " ++ toString r.status ++ " " ++ r.textBody), 1⟩
        else
          match r.jsonBody with
          | .error m => ⟨.error m, 1⟩
          | .ok data =>
            match openaiExtract data with
            | .error m => ⟨.error m, 1⟩
            | .ok t =>
              ⟨.ok ⟨"openai", .success, jsOrOpt t "No response received.", some data⟩, 1⟩

/-- `queryGemini` (server.js lines 179–220). -/
def queryGemini (prompt : String) (config : Json) (env : Env) (fo : FetchOutcome) : AdapterRun :=
  match config.member "apiKey" with
  | .error e => ⟨.error e, 0⟩
  | .ok ck =>
    let apiKey := if jsTruthyO ck then ck else env.gemini.map Json.str
    if jsTruthyO apiKey = false then
      ⟨.ok ⟨"gemini", .missing_credentials, "GEMINI_API_KEY is not set", none⟩, 0⟩
    else
      match fo with
      | .reject m => ⟨.error m, 1⟩
      | .resp r =>
        if r.okFlag = false then
          ⟨.error ("Gemini error: " ++ toString r.status ++ " " ++ r.textBody), 1⟩
        else
          match r.jsonBody with
          | .error m => ⟨.error m, 1⟩
          | .ok data =>
            match geminiExtract data with
            | .error m => ⟨.error m, 1⟩
            | .ok t =>
              ⟨.ok ⟨"gemini", .success, jsOrOpt t "No response received.", some data⟩, 1⟩

/-- `queryAnthropic` (server.js lines 222–269). -/
def queryAnthropic (prompt : String) (config : Json) (env : Env) (fo : FetchOutcome) : AdapterRun :=
  match config.member "apiKey" with
  | .error e => ⟨.error e, 0⟩
  | .ok ck =>
    let apiKey := if jsTruthyO ck then ck else env.anthropic.map Json.str
    if jsTruthyO apiKey = false then
      ⟨.ok ⟨"anthropic", .missing_credentials, "ANTHROPIC_API_KEY is not set", none⟩, 0⟩
    else
      match fo with
      | .reject m => ⟨.error m, 1⟩
      | .resp r =>
        if r.okFlag = false then
          ⟨.error ("Anthropic error: " ++ toString r.status ++ " " ++ r.textBody), 1⟩
        else
          match r.jsonBody with
          | .error m => ⟨.error m, 1⟩
          | .ok data =>
            match anthropicExtract data with
            | .error m => ⟨.error m, 1⟩
            | .ok t =>
              ⟨.ok ⟨"anthropic", .success, jsOrOpt t "No response received.", some data⟩, 1⟩

/-- The `switch (provider)` body of `queryProvider` (server.js lines
106–119): dispatch to an adapter, or the `unsupported` default. -/
def adapterRun (provider prompt : String) (cfg : Json) (env : Env) (fo : FetchOutcome) : AdapterRun :=
  if provider = "openai" then queryOpenAI prompt cfg env fo
  else if provider = "gemini" then queryGemini prompt cfg env fo
  else if provider = "anthropic" then queryAnthropic prompt cfg env fo
  else ⟨.ok ⟨provider, .unsupported, "Provider \"" ++ provider ++ "\" is not implemented", none⟩, 0⟩

/-- The call-site `catch` of `queryProvider` (server.js lines 120–127): a
thrown exception becomes a result of status `error` with message
`error.message || 'Unexpected error'`. -/
def catchRun (provider : String) (run : AdapterRun) : NormalizedResult × Nat :=
  match run.result with
  | .ok r => (r, run.calls)
  | .error m => (⟨provider, .error, jsOrS m "Unexpected error", none⟩, run.calls)

/-- `queryProvider` (server.js lines 104–128). -/
def queryProvider (provider prompt : String) (cfg : Json) (env : Env) (fo : FetchOutcome) : NormalizedResult × Nat :=
  catchRun provider (adapterRun provider prompt cfg env fo)

/-- One element of `providers.map((provider) => queryProvider(provider,
prompt, config[provider] || {}))` (server.js line 39): the computed member
access `config[provider]` can throw (e.g. when `config` is `null`); a
non-string element never matches the `switch` and yields `unsupported`. -/
def queryProviderJ (pj : Json) (prompt : String) (config : Json) (env : Env)
    (fetchOut : String → FetchOutcome) : Except String (NormalizedResult × Nat) :=
  match config.member (Json.jsToString pj) with
  | .error e => .error e
  | .ok pc =>
    let providerConfig := jsOrElse pc (Json.obj [])
    match pj with
    | Json.str s => .ok (queryProvider s prompt providerConfig env (fetchOut s))
    | _ => .ok (⟨Json.jsToString pj, .unsupported,
        "Provider \"" ++ Json.jsToString pj ++ "\" is not implemented", none⟩, 0)

/-- The provider fan-out: build and join all adapter tasks.  A throw while
building the task list propagates (as in `providers.map`). -/
def runProviders (ps : List Json) (prompt : String) (config : Json) (env : Env)
    (fetchOut : String → FetchOutcome) : Except String (List (NormalizedResult × Nat)) :=
  match ps with
  | [] => .ok []
  | pj :: rest =>
    match queryProviderJ pj prompt config env fetchOut with
    | .error e => .error e
    | .ok r =>
      match runProviders rest prompt config env fetchOut with
      | .error e => .error e
      | .ok rs => .ok (r :: rs)

/-- JS object update `{ ...acc, [k]: v }`: an existing key keeps its
position and gets the new value, a new key is appended. -/
def insertJS (acc : List (String × NormalizedResult)) (k : String) (v : NormalizedResult) :
    List (String × NormalizedResult) :=
  if k ∈ acc.map Prod.fst then acc.map (fun q => if q.1 = k then (k, v) else q)
  else acc ++ [(k, v)]

/-- `results.reduce((acc, result) => ({ ...acc, [result.provider]: result }), {})`
(server.js line 41), with JS object key order made explicit as a list. -/
def assemble (rs : List NormalizedResult) : List (String × NormalizedResult) :=
  rs.foldl (fun acc r => insertJS acc r.provider r) []

/-- Total outbound network calls of a joined fan-out. -/
def sumCalls (rs : List (NormalizedResult × Nat)) : Nat :=
  (rs.map Prod.snd).sum

/-- The HTTP responses the `POST /api/query` route can produce. -/
inductive HttpResponse where
  | ok (prompt : String) (responses : List (String × NormalizedResult))
  | badRequest (err : String)
  | internalError

/-- The `POST /api/query` handler after `JSON.parse` succeeded (server.js
lines 31–45), with thrown `TypeError`s as `Except.error`.  Destructuring
defaults apply only to `undefined` fields; a non-array `providers` throws at
`.map`.  The second component is the total number of outbound calls. -/
def handleQueryE (payload : Json) (env : Env) (fetchOut : String → FetchOutcome) :
    Except String (HttpResponse × Nat) :=
  match payload.member "prompt" with
  | .error e => .error e
  | .ok promptV =>
  match payload.member "providers" with
  | .error e => .error e
  | .ok providersV =>
  match payload.member "config" with
  | .error e => .error e
  | .ok configV =>
  let providers := match providersV with
    | none => Json.arr [Json.str "openai", Json.str "gemini", Json.str "anthropic"]
    | some v => v
  let config := match configV with
    | none => Json.obj []
    | some v => v
  match promptV with
  | some (Json.str p) =>
    if p = "" then .ok (.badRequest "Prompt is required", 0)
    else
      match providers with
      | Json.arr ps =>
        match runProviders ps p config env fetchOut with
        | .error e => .error e
        | .ok rs => .ok (.ok p (assemble (rs.map Prod.fst)), sumCalls rs)
      | _ => .error "TypeError: providers.map is not a function"
  | _ => .ok (.badRequest "Prompt is required", 0)

/-- The route with the server's outer `try/catch` (server.js lines 13, 55–59):
any uncaught error becomes the generic 500 response. -/
def handleQuery (payload : Json) (env : Env) (fetchOut : String → FetchOutcome) : HttpResponse :=
  match handleQueryE payload env fetchOut with
  | .ok (r, _) => r
  | .error _ => .internalError

/-- The three known provider identifiers. -/
def knownProviders : List String :=
  ["openai", "gemini", "anthropic"]

/-- The environment variable an identifier's adapter consults. -/
def envKey (provider : String) (env : Env) : Option String :=
  if provider = "openai" then env.openai
  else if provider = "gemini" then env.gemini
  else if provider = "anthropic" then env.anthropic
  else none

/-- The `missing_credentials` message of each adapter. -/
def missingMsg (provider : String) : String :=
  if provider = "openai" then "OPENAI_API_KEY is not set"
  else if provider = "gemini" then "GEMINI_API_KEY is not set"
  else if provider = "anthropic" then "ANTHROPIC_API_KEY is not set"
  else ""

/-- The vendor label used in the thrown non-2xx error message. -/
def vendorLabel (provider : String) : String :=
  if provider = "openai" then "OpenAI"
  else if provider = "gemini" then "Gemini"
  else if provider = "anthropic" then "Anthropic"
  else ""

/-- The text-extraction chain each known adapter applies to the parsed
vendor response. -/
def extractText (provider : String) (data : Json) : Except String (Option String) :=
  if provider = "openai" then openaiExtract data
  else if provider = "gemini" then geminiExtract data
  else if provider = "anthropic" then anthropicExtract data
  else .ok none

/-! ## The static file resolver's path arithmetic -/

/-- Split a character list at `'/'` (auxiliary accumulator form). -/
def splitSlashAux : List Char → List Char → List (List Char)
  | [], acc => [acc.reverse]
  | c :: cs, acc => if c = '/' then acc.reverse :: splitSlashAux cs [] else splitSlashAux cs (c :: acc)

/-- Split a character list at `'/'`. -/
def splitSlash (cs : List Char) : List (List Char) :=
  splitSlashAux cs []

/-- Join segments with `'/'`. -/
def intercalateSlash : List (List Char) → List Char
  | [] => []
  | [s] => s
  | s :: rest => s ++ '/' :: intercalateSlash rest

/-- A segment `path.normalize` drops outright. -/
def skipSeg (s : List Char) : Prop :=
  s = [] ∨ s = ['.']

instance (s : List Char) : Decidable (skipSeg s) := by
  unfold skipSeg; infer_instance

/-- One step of Node's `normalizeString`: skip empty and `.` segments,
resolve `..` against the stack (dropping above-root `..` for absolute
paths), push anything else.  The stack is kept reversed (top first). -/
def normStep (isAbs : Bool) (stack : List (List Char)) (seg : List Char) : List (List Char) :=
  if skipSeg seg then stack
  else if seg = ['.', '.'] then
    match stack with
    | [] => if isAbs then [] else [['.', '.']]
    | top :: rest => if top = ['.', '.'] then ['.', '.'] :: stack else rest
  else seg :: stack

/-- Node's `path.posix.normalize`. -/
def posixNormalize (p : String) : String :=
  match p.toList with
  | [] => "."
  | c :: cs0 =>
    let cs := c :: cs0
    let stack := (splitSlash cs).foldl (normStep (decide (c = '/'))) []
    let core := intercalateSlash stack.reverse
    if core = [] then
      if c = '/' then "/" else if cs.getLast? = some '/' then "./" else "."
    else
      String.mk ((if c = '/' then ['/'] else []) ++ core ++
        (if cs.getLast? = some '/' then ['/'] else []))

/-- `requestedFile.replace(/^\.\.(\/|\\)/, '')` (server.js line 68): strip a
single leading `../` (or `..\`). -/
def stripDotDot (s : String) : String :=
  match s.toList with
  | '.' :: '.' :: '/' :: rest => String.mk rest
  | '.' :: '.' :: '\\' :: rest => String.mk rest
  | _ => s

/-- Node's `path.posix.join` for two parts: drop empty parts, concatenate
with `'/'` and normalize. -/
def posixJoin (a b : String) : String :=
  if a.toList = [] ∧ b.toList = [] then "."
  else if a.toList = [] then posixNormalize b
  else if b.toList = [] then posixNormalize a
  else posixNormalize (String.mk (a.toList ++ '/' :: b.toList))

/-- The file path `serveStatic` reads (server.js lines 67–69). -/
def resolveStatic (publicDir requestPath : String) : String :=
  let relativePath := if requestPath = "/" then "/index.html" else requestPath
  let requestedFile := stripDotDot (posixNormalize relativePath)
  posixJoin publicDir requestedFile

/-- Outcome of the static file resolver (content type omitted). -/
inductive StaticOutcome where
  | found (data : String)
  | notFound

/-- `serveStatic` (server.js lines 66–84) over an abstract filesystem:
`none` models the `ENOENT` branch (404). -/
def serveStatic (fsFiles : String → Option String) (publicDir requestPath : String) : StaticOutcome :=
  match fsFiles (resolveStatic publicDir requestPath) with
  | some d => .found d
  | none => .notFound

/-! ## Helper lemmas -/

@[simp] theorem AdapterRun.result_mk (x : Except String NormalizedResult) (n : Nat) :
    (AdapterRun.mk x n).result = x := rfl

@[simp] theorem AdapterRun.calls_mk (x : Except String NormalizedResult) (n : Nat) :
    (AdapterRun.mk x n).calls = n := rfl

theorem append_ne_empty_left (s t : String) (hs : s ≠ "") : s ++ t ≠ "" := by
  intro h
  apply hs
  have hd : s.data ++ t.data = [] := by
    have h2 := congrArg String.data h
    simpa [String.data_append] using h2
  rcases List.append_eq_nil.mp hd with ⟨h1, _⟩
  apply String.ext
  simpa using h1

theorem jsOrS_ne_empty (s fb : String) (hfb : fb ≠ "") : jsOrS s fb ≠ "" := by
  unfold jsOrS
  by_cases hs : s = ""
  · simpa [hs] using hfb
  · simpa [hs] using hs

theorem jsOrS_of_ne (s fb : String) (hs : s ≠ "") : jsOrS s fb = s := by
  unfold jsOrS
  rw [if_neg hs]

theorem jsOrOpt_ne_empty (o : Option String) (fb : String) (hfb : fb ≠ "") : jsOrOpt o fb ≠ "" := by
  cases o with
  | none => exact hfb
  | some s =>
    show (if s = "" then fb else s) ≠ ""
    by_cases hs : s = ""
    · simpa [hs] using hfb
    · simpa [hs] using hs

/-- Invariant of every `Except.ok` result of `queryOpenAI`: the provider tag
is `"openai"`, the message is non-empty, and `raw` is carried only with
status `success`. -/
theorem queryOpenAI_ok_inv {p : String} {cfg : Json} {env : Env} {fo : FetchOutcome}
    {r : NormalizedResult} (h : (queryOpenAI p cfg env fo).result = .ok r) :
    r.provider = "openai" ∧ r.message ≠ "" ∧ (r.raw = none ∨ r.status = ResStatus.success) := by
  unfold queryOpenAI at h
  iterate 20 (all_goals (try first | split at h | dsimp only at h))
  all_goals simp at h
  all_goals subst h
  all_goals refine ⟨rfl, ?_, ?_⟩
  all_goals first
    | exact Or.inl rfl
    | exact Or.inr rfl
    | exact jsOrOpt_ne_empty _ _ (by decide)
    | decide

/-- Invariant of every `Except.ok` result of `queryGemini`. -/
theorem queryGemini_ok_inv {p : String} {cfg : Json} {env : Env} {fo : FetchOutcome}
    {r : NormalizedResult} (h : (queryGemini p cfg env fo).result = .ok r) :
    r.provider = "gemini" ∧ r.message ≠ "" ∧ (r.raw = none ∨ r.status = ResStatus.success) := by
  unfold queryGemini at h
  iterate 20 (all_goals (try first | split at h | dsimp only at h))
  all_goals simp at h
  all_goals subst h
  all_goals refine ⟨rfl, ?_, ?_⟩
  all_goals first
    | exact Or.inl rfl
    | exact Or.inr rfl
    | exact jsOrOpt_ne_empty _ _ (by decide)
    | decide

/-- Invariant of every `Except.ok` result of `queryAnthropic`. -/
theorem queryAnthropic_ok_inv {p : String} {cfg : Json} {env : Env} {fo : FetchOutcome}
    {r : NormalizedResult} (h : (queryAnthropic p cfg env fo).result = .ok r) :
    r.provider = "anthropic" ∧ r.message ≠ "" ∧ (r.raw = none ∨ r.status = ResStatus.success) := by
  unfold queryAnthropic at h
  iterate 20 (all_goals (try first | split at h | dsimp only at h))
  all_goals simp at h
  all_goals subst h
  all_goals refine ⟨rfl, ?_, ?_⟩
  all_goals first
    | exact Or.inl rfl
    | exact Or.inr rfl
    | exact jsOrOpt_ne_empty _ _ (by decide)
    | decide

/-- Invariant of every `Except.ok` result of the `switch` body. -/
theorem adapterRun_ok_inv {provider p : String} {cfg : Json} {env : Env} {fo : FetchOutcome}
    {r : NormalizedResult} (h : (adapterRun provider p cfg env fo).result = .ok r) :
    r.provider = provider ∧ r.message ≠ "" ∧ (r.raw = none ∨ r.status = ResStatus.success) := by
  unfold adapterRun at h
  split at h
  · rcases queryOpenAI_ok_inv h with ⟨h1, h2, h3⟩
    exact ⟨by simp_all, h2, h3⟩
  · split at h
    · rcases queryGemini_ok_inv h with ⟨h1, h2, h3⟩
      exact ⟨by simp_all, h2, h3⟩
    · split at h
      · rcases queryAnthropic_ok_inv h with ⟨h1, h2, h3⟩
        exact ⟨by simp_all, h2, h3⟩
      · simp at h
        subst h
        exact ⟨rfl, append_ne_empty_left _ _ (append_ne_empty_left _ _ (by decide)), Or.inl rfl⟩

/-- The result of `queryProvider` always carries the requested identifier. -/
theorem queryProvider_fst_provider (provider prompt : String) (cfg : Json) (env : Env)
    (fo : FetchOutcome) : (queryProvider provider prompt cfg env fo).1.provider = provider := by
  unfold queryProvider catchRun
  split
  next r heq => exact (adapterRun_ok_inv heq).1
  next m heq => rfl

/-! ## Reduction lemmas for the three known identifiers -/

@[simp] theorem adapterRun_openai (p : String) (cfg : Json) (env : Env) (fo : FetchOutcome) :
    adapterRun "openai" p cfg env fo = queryOpenAI p cfg env fo := rfl

@[simp] theorem adapterRun_gemini (p : String) (cfg : Json) (env : Env) (fo : FetchOutcome) :
    adapterRun "gemini" p cfg env fo = queryGemini p cfg env fo := rfl

@[simp] theorem adapterRun_anthropic (p : String) (cfg : Json) (env : Env) (fo : FetchOutcome) :
    adapterRun "anthropic" p cfg env fo = queryAnthropic p cfg env fo := rfl

@[simp] theorem envKey_openai (env : Env) : envKey "openai" env = env.openai := rfl

@[simp] theorem envKey_gemini (env : Env) : envKey "gemini" env = env.gemini := rfl

@[simp] theorem envKey_anthropic (env : Env) : envKey "anthropic" env = env.anthropic := rfl

@[simp] theorem jsTruthyO_none : jsTruthyO none = false := rfl

/-- The adapter core: credentials resolved and a non-2xx response throw the
vendor-labelled error (OpenAI case). -/
theorem queryOpenAI_httpError (p : String) (cfg : Json) (env : Env) (r : FetchResponse)
    (ck : Option Json) (hck : cfg.member "apiKey" = .ok ck)
    (hkey : jsTruthyO (if jsTruthyO ck = true then ck else env.openai.map Json.str) = true)
    (hok : r.okFlag = false) :
    queryOpenAI p cfg env (.resp r) =
      ⟨.error ("OpenAI error: " ++ toString r.status ++ " " ++ r.textBody), 1⟩ := by
  unfold queryOpenAI
  rw [hck]
  try dsimp only
  rw [if_neg (by simp [hkey])]
  try dsimp only
  rw [if_pos hok]

theorem queryGemini_httpError (p : String) (cfg : Json) (env : Env) (r : FetchResponse)
    (ck : Option Json) (hck : cfg.member "apiKey" = .ok ck)
    (hkey : jsTruthyO (if jsTruthyO ck = true then ck else env.gemini.map Json.str) = true)
    (hok : r.okFlag = false) :
    queryGemini p cfg env (.resp r) =
      ⟨.error ("Gemini error: " ++ toString r.status ++ " " ++ r.textBody), 1⟩ := by
  unfold queryGemini
  rw [hck]
  try dsimp only
  rw [if_neg (by simp [hkey])]
  try dsimp only
  rw [if_pos hok]

theorem queryAnthropic_httpError (p : String) (cfg : Json) (env : Env) (r : FetchResponse)
    (ck : Option Json) (hck : cfg.member "apiKey" = .ok ck)
    (hkey : jsTruthyO (if jsTruthyO ck = true then ck else env.anthropic.map Json.str) = true)
    (hok : r.okFlag = false) :
    queryAnthropic p cfg env (.resp r) =
      ⟨.error ("Anthropic error: " ++ toString r.status ++ " " ++ r.textBody), 1⟩ := by
  unfold queryAnthropic
  rw [hck]
  try dsimp only
  rw [if_neg (by simp [hkey])]
  try dsimp only
  rw [if_pos hok]

/-- The adapter core: credentials resolved, 2xx response, parsed body, and
text extraction yielding `t` (OpenAI case). -/
theorem queryOpenAI_success (p : String) (cfg : Json) (env : Env) (r : FetchResponse)
    (ck : Option Json) (data : Json) (t : Option String)
    (hck : cfg.member "apiKey" = .ok ck)
    (hkey : jsTruthyO (if jsTruthyO ck = true then ck else env.openai.map Json.str) = true)
    (hok : r.okFlag = true) (hjson : r.jsonBody = .ok data)
    (hex : openaiExtract data = .ok t) :
    queryOpenAI p cfg env (.resp r) =
      ⟨.ok ⟨"openai", .success, jsOrOpt t "No response received.", some data⟩, 1⟩ := by
  unfold queryOpenAI
  rw [hck]
  try dsimp only
  rw [if_neg (by simp [hkey])]
  try dsimp only
  rw [if_neg (by simp [hok]), hjson]
  try dsimp only
  rw [hex]

theorem queryGemini_success (p : String) (cfg : Json) (env : Env) (r : FetchResponse)
    (ck : Option Json) (data : Json) (t : Option String)
    (hck : cfg.member "apiKey" = .ok ck)
    (hkey : jsTruthyO (if jsTruthyO ck = true then ck else env.gemini.map Json.str) = true)
    (hok : r.okFlag = true) (hjson : r.jsonBody = .ok data)
    (hex : geminiExtract data = .ok t) :
    queryGemini p cfg env (.resp r) =
      ⟨.ok ⟨"gemini", .success, jsOrOpt t "No response received.", some data⟩, 1⟩ := by
  unfold queryGemini
  rw [hck]
  try dsimp only
  rw [if_neg (by simp [hkey])]
  try dsimp only
  rw [if_neg (by simp [hok]), hjson]
  try dsimp only
  rw [hex]

theorem queryAnthropic_success (p : String) (cfg : Json) (env : Env) (r : FetchResponse)
    (ck : Option Json) (data : Json) (t : Option String)
    (hck : cfg.member "apiKey" = .ok ck)
    (hkey : jsTruthyO (if jsTruthyO ck = true then ck else env.anthropic.map Json.str) = true)
    (hok : r.okFlag = true) (hjson : r.jsonBody = .ok data)
    (hex : anthropicExtract data = .ok t) :
    queryAnthropic p cfg env (.resp r) =
      ⟨.ok ⟨"anthropic", .success, jsOrOpt t "No response received.", some data⟩, 1⟩ := by
  unfold queryAnthropic
  rw [hck]
  try dsimp only
  rw [if_neg (by simp [hkey])]
  try dsimp only
  rw [if_neg (by simp [hok]), hjson]
  try dsimp only
  rw [hex]

/-- The adapter core: no truthy config key and no environment variable
(OpenAI case). -/
theorem queryOpenAI_missing (p : String) (cfg : Json) (env : Env) (fo : FetchOutcome)
    (ck : Option Json) (hck : cfg.member "apiKey" = .ok ck)
    (hckf : jsTruthyO ck = false) (henv : env.openai = none) :
    queryOpenAI p cfg env fo =
      ⟨.ok ⟨"openai", .missing_credentials, "OPENAI_API_KEY is not set", none⟩, 0⟩ := by
  unfold queryOpenAI
  rw [hck]
  try dsimp only
  rw [if_pos (by simp [hckf, henv])]

theorem queryGemini_missing (p : String) (cfg : Json) (env : Env) (fo : FetchOutcome)
    (ck : Option Json) (hck : cfg.member "apiKey" = .ok ck)
    (hckf : jsTruthyO ck = false) (henv : env.gemini = none) :
    queryGemini p cfg env fo =
      ⟨.ok ⟨"gemini", .missing_credentials, "GEMINI_API_KEY is not set", none⟩, 0⟩ := by
  unfold queryGemini
  rw [hck]
  try dsimp only
  rw [if_pos (by simp [hckf, henv])]

theorem queryAnthropic_missing (p : String) (cfg : Json) (env : Env) (fo : FetchOutcome)
    (ck : Option Json) (hck : cfg.member "apiKey" = .ok ck)
    (hckf : jsTruthyO ck = false) (henv : env.anthropic = none) :
    queryAnthropic p cfg env fo =
      ⟨.ok ⟨"anthropic", .missing_credentials, "ANTHROPIC_API_KEY is not set", none⟩, 0⟩ := by
  unfold queryAnthropic
  rw [hck]
  try dsimp only
  rw [if_pos (by simp [hckf, henv])]

/-! ## Claims C3–C8, C10: dispatcher and adapters -/

/-- Claim C4: every `NormalizedResult` produced by `queryProvider` — for any
provider identifier, prompt, config, environment and vendor outcome — has a
non-empty `message`, and carries `raw` only when its status is `success`
(on every other status `raw` is absent). -/
theorem c4_result_invariants (provider prompt : String) (cfg : Json) (env : Env)
    (fo : FetchOutcome) :
    (queryProvider provider prompt cfg env fo).1.message ≠ "" ∧
    ((queryProvider provider prompt cfg env fo).1.raw = none ∨
      (queryProvider provider prompt cfg env fo).1.status = ResStatus.success) := by
  unfold queryProvider catchRun
  split
  next r heq =>
    rcases adapterRun_ok_inv heq with ⟨_, h2, h3⟩
    exact ⟨h2, h3⟩
  next m heq =>
    exact ⟨jsOrS_ne_empty _ _ (by decide), Or.inl rfl⟩

/-- Claim C3: `queryProvider` never rejects (it is total into plain result
pairs); an exception thrown anywhere inside the adapter call (an
`Except.error` of `adapterRun`) is caught at the call site and becomes a
result of status `error` whose message is the exception's message.  (The
code substitutes `'Unexpected error'` only for an empty message, hence the
`m ≠ ""` hypothesis; a failing provider thus never fails the request — see
`c1_response_keys`, which returns 200 for arbitrary fetch outcomes.) -/
theorem c3_adapter_catch (provider prompt : String) (cfg : Json) (env : Env) (fo : FetchOutcome)
    (m : String) (h : (adapterRun provider prompt cfg env fo).result = .error m) (hm : m ≠ "") :
    queryProvider provider prompt cfg env fo =
      (⟨provider, ResStatus.error, m, none⟩, (adapterRun provider prompt cfg env fo).calls) := by
  unfold queryProvider catchRun
  rw [h]
  try dsimp only
  rw [jsOrS_of_ne m _ hm]

theorem c3_adapter_catch_witness :
    (adapterRun "openai" "hi" (Json.obj [("apiKey", Json.str "k")]) ⟨none, none, none⟩
        (FetchOutcome.reject "boom")).result = .error "boom" ∧
    ("boom" : String) ≠ "" ∧
    queryProvider "openai" "hi" (Json.obj [("apiKey", Json.str "k")]) ⟨none, none, none⟩
        (FetchOutcome.reject "boom") =
      (⟨"openai", ResStatus.error, "boom", none⟩,
        (adapterRun "openai" "hi" (Json.obj [("apiKey", Json.str "k")]) ⟨none, none, none⟩
          (FetchOutcome.reject "boom")).calls) :=
  ⟨rfl, by decide, c3_adapter_catch "openai" "hi" _ _ _ "boom" rfl (by decide)⟩

/-- Claim C5: with no `apiKey` in the per-request config and the matching
environment variable unset, each known provider's adapter returns
`missing_credentials` immediately, with zero network calls. -/
theorem c5_missing_credentials (provider prompt : String) (cfg : Json) (env : Env)
    (fo : FetchOutcome)
    (hprov : provider ∈ knownProviders)
    (hkey : cfg.member "apiKey" = .ok none)
    (henv : envKey provider env = none) :
    queryProvider provider prompt cfg env fo =
      (⟨provider, ResStatus.missing_credentials, missingMsg provider, none⟩, 0) := by
  simp only [knownProviders, List.mem_cons, List.not_mem_nil, or_false] at hprov
  unfold queryProvider catchRun
  rcases hprov with rfl | rfl | rfl
  · rw [envKey_openai] at henv
    rw [adapterRun_openai, queryOpenAI_missing prompt cfg env fo none hkey rfl henv]
    rfl
  · rw [envKey_gemini] at henv
    rw [adapterRun_gemini, queryGemini_missing prompt cfg env fo none hkey rfl henv]
    rfl
  · rw [envKey_anthropic] at henv
    rw [adapterRun_anthropic, queryAnthropic_missing prompt cfg env fo none hkey rfl henv]
    rfl

theorem c5_missing_credentials_witness :
    ("openai" ∈ knownProviders) ∧
    (Json.obj []).member "apiKey" = Except.ok none ∧
    envKey "openai" ⟨none, none, none⟩ = none ∧
    queryProvider "openai" "hi" (Json.obj []) ⟨none, none, none⟩ (FetchOutcome.reject "x") =
      (⟨"openai", ResStatus.missing_credentials, missingMsg "openai", none⟩, 0) :=
  ⟨by decide, rfl, rfl, c5_missing_credentials "openai" "hi" _ _ _ (by decide) rfl rfl⟩

/-- Claim C6: an identifier that is none of `openai`, `gemini`, `anthropic`
yields, for any prompt value, status `unsupported` with a message naming the
identifier, and performs no network call (the call counter is 0). -/
theorem c6_unknown_unsupported (provider prompt : String) (cfg : Json) (env : Env)
    (fo : FetchOutcome) (h : provider ∉ knownProviders) :
    queryProvider provider prompt cfg env fo =
      (⟨provider, ResStatus.unsupported, "Provider \"" ++ provider ++ "\" is not implemented",
        none⟩, 0) := by
  simp only [knownProviders, List.mem_cons, List.not_mem_nil, or_false, not_or] at h
  obtain ⟨h1, h2, h3⟩ := h
  unfold queryProvider adapterRun catchRun
  rw [if_neg h1, if_neg h2, if_neg h3]

theorem c6_unknown_unsupported_witness :
    ("cohere" ∉ knownProviders) ∧
    queryProvider "cohere" "hi" (Json.obj []) ⟨none, none, none⟩ (FetchOutcome.reject "x") =
      (⟨"cohere", ResStatus.unsupported, "Provider \"" ++ "cohere" ++ "\" is not implemented",
        none⟩, 0) :=
  ⟨by decide, c6_unknown_unsupported "cohere" "hi" _ _ _ (by decide)⟩

/-- Claim C7: when the key resolves and the vendor call returns a non-2xx
status (`okFlag = false`, i.e. status outside 200–299), the known provider's
result has status `error`, and its message contains the vendor's numeric
status code (the message is given exactly; the last conjunct exhibits the
decimal status code as an infix of it). -/
theorem c7_vendor_http_error (provider prompt : String) (cfg : Json) (env : Env)
    (r : FetchResponse) (ck : Option Json)
    (hprov : provider ∈ knownProviders)
    (hck : cfg.member "apiKey" = .ok ck)
    (hkey : jsTruthyO (if jsTruthyO ck = true then ck else ((envKey provider env).map Json.str)) = true)
    (hok : r.okFlag = false) :
    queryProvider provider prompt cfg env (.resp r) =
      (⟨provider, ResStatus.error,
        vendorLabel provider ++ " error: " ++ toString r.status ++ " " ++ r.textBody, none⟩, 1) ∧
    ∃ a b : String,
      vendorLabel provider ++ " error: " ++ toString r.status ++ " " ++ r.textBody =
        a ++ toString r.status ++ b := by
  refine ⟨?_, vendorLabel provider ++ " error: ", " " ++ r.textBody, by
    simp [String.append_assoc]⟩
  simp only [knownProviders, List.mem_cons, List.not_mem_nil, or_false] at hprov
  unfold queryProvider catchRun
  rcases hprov with rfl | rfl | rfl
  · rw [envKey_openai] at hkey
    rw [adapterRun_openai, queryOpenAI_httpError prompt cfg env r ck hck hkey hok]
    try dsimp only
    rw [jsOrS_of_ne _ _ (append_ne_empty_left _ _ (append_ne_empty_left _ _ (append_ne_empty_left _ _ (by decide))))]
    rfl
  · rw [envKey_gemini] at hkey
    rw [adapterRun_gemini, queryGemini_httpError prompt cfg env r ck hck hkey hok]
    try dsimp only
    rw [jsOrS_of_ne _ _ (append_ne_empty_left _ _ (append_ne_empty_left _ _ (append_ne_empty_left _ _ (by decide))))]
    rfl
  · rw [envKey_anthropic] at hkey
    rw [adapterRun_anthropic, queryAnthropic_httpError prompt cfg env r ck hck hkey hok]
    try dsimp only
    rw [jsOrS_of_ne _ _ (append_ne_empty_left _ _ (append_ne_empty_left _ _ (append_ne_empty_left _ _ (by decide))))]
    rfl

theorem c7_vendor_http_error_witness :
    ("openai" ∈ knownProviders) ∧
    (Json.obj [("apiKey", Json.str "k")]).member "apiKey" = Except.ok (some (Json.str "k")) ∧
    jsTruthyO (if jsTruthyO (some (Json.str "k")) = true then some (Json.str "k")
      else ((envKey "openai" ⟨none, none, none⟩).map Json.str)) = true ∧
    FetchResponse.okFlag ⟨500, "boom", Except.error "nope"⟩ = false ∧
    (queryProvider "openai" "hi" (Json.obj [("apiKey", Json.str "k")]) ⟨none, none, none⟩
        (FetchOutcome.resp ⟨500, "boom", Except.error "nope"⟩) =
      (⟨"openai", ResStatus.error,
        vendorLabel "openai" ++ " error: " ++ toString (500 : Nat) ++ " " ++ "boom", none⟩, 1) ∧
    ∃ a b : String,
      vendorLabel "openai" ++ " error: " ++ toString (500 : Nat) ++ " " ++ "boom" =
        a ++ toString (500 : Nat) ++ b) :=
  ⟨by decide, rfl, rfl, by decide,
    c7_vendor_http_error "openai" "hi" _ _ ⟨500, "boom", Except.error "nope"⟩
      (some (Json.str "k")) (by decide) rfl rfl (by decide)⟩

/-- Claim C8: when the key resolves, the vendor call returns 2xx with a
parseable body, and text extraction yields nothing (`none`, e.g. missing
fields) or an empty string (empty or whitespace-only text after trimming),
the known provider's adapter returns status `success` with the literal
message `"No response received."`. -/
theorem c8_empty_extraction (provider prompt : String) (cfg : Json) (env : Env)
    (r : FetchResponse) (ck : Option Json) (data : Json)
    (hprov : provider ∈ knownProviders)
    (hck : cfg.member "apiKey" = .ok ck)
    (hkey : jsTruthyO (if jsTruthyO ck = true then ck else ((envKey provider env).map Json.str)) = true)
    (hok : r.okFlag = true) (hjson : r.jsonBody = .ok data)
    (hex : extractText provider data = .ok none ∨ extractText provider data = .ok (some "")) :
    queryProvider provider prompt cfg env (.resp r) =
      (⟨provider, ResStatus.success, "No response received.", some data⟩, 1) := by
  simp only [knownProviders, List.mem_cons, List.not_mem_nil, or_false] at hprov
  unfold queryProvider catchRun
  rcases hprov with rfl | rfl | rfl
  · rw [envKey_openai] at hkey
    simp only [extractText, reduceIte] at hex
    rcases hex with hex | hex
    · rw [adapterRun_openai, queryOpenAI_success prompt cfg env r ck data none hck hkey hok hjson hex]
      rfl
    · rw [adapterRun_openai,
        queryOpenAI_success prompt cfg env r ck data (some "") hck hkey hok hjson hex]
      rfl
  · rw [envKey_gemini] at hkey
    simp only [extractText, reduceIte] at hex
    rcases hex with hex | hex
    · rw [adapterRun_gemini, queryGemini_success prompt cfg env r ck data none hck hkey hok hjson hex]
      rfl
    · rw [adapterRun_gemini,
        queryGemini_success prompt cfg env r ck data (some "") hck hkey hok hjson hex]
      rfl
  · rw [envKey_anthropic] at hkey
    simp only [extractText, reduceIte] at hex
    rcases hex with hex | hex
    · rw [adapterRun_anthropic,
        queryAnthropic_success prompt cfg env r ck data none hck hkey hok hjson hex]
      rfl
    · rw [adapterRun_anthropic,
        queryAnthropic_success prompt cfg env r ck data (some "") hck hkey hok hjson hex]
      rfl

theorem c8_empty_extraction_witness :
    ("openai" ∈ knownProviders) ∧
    (Json.obj [("apiKey", Json.str "k")]).member "apiKey" = Except.ok (some (Json.str "k")) ∧
    jsTruthyO (if jsTruthyO (some (Json.str "k")) = true then some (Json.str "k")
      else ((envKey "openai" ⟨none, none, none⟩).map Json.str)) = true ∧
    FetchResponse.okFlag ⟨200, "", Except.ok (Json.obj [])⟩ = true ∧
    (FetchResponse.mk 200 "" (Except.ok (Json.obj []))).jsonBody = Except.ok (Json.obj []) ∧
    extractText "openai" (Json.obj []) = Except.ok none ∧
    queryProvider "openai" "hi" (Json.obj [("apiKey", Json.str "k")]) ⟨none, none, none⟩
        (FetchOutcome.resp ⟨200, "", Except.ok (Json.obj [])⟩) =
      (⟨"openai", ResStatus.success, "No response received.", some (Json.obj [])⟩, 1) :=
  ⟨by decide, rfl, rfl, by decide, rfl, rfl,
    c8_empty_extraction "openai" "hi" _ _ ⟨200, "", Except.ok (Json.obj [])⟩
      (some (Json.str "k")) (Json.obj []) (by decide) rfl rfl (by decide) rfl (Or.inl rfl)⟩

/-- Claim C10: an empty-string `apiKey` override is falsy, hence treated
exactly as an absent override: the adapter behaves identically to one called
without a key (first conjunct), and when the environment variable is unset
or empty it returns `missing_credentials` with zero network calls (second
conjunct). -/
theorem c10_empty_key_fallback (provider prompt : String) (cfg cfg2 : Json) (env : Env)
    (fo : FetchOutcome)
    (hprov : provider ∈ knownProviders)
    (h1 : cfg.member "apiKey" = .ok (some (Json.str "")))
    (h2 : cfg2.member "apiKey" = .ok none) :
    queryProvider provider prompt cfg env fo = queryProvider provider prompt cfg2 env fo ∧
    ((envKey provider env = none ∨ envKey provider env = some "") →
      queryProvider provider prompt cfg env fo =
        (⟨provider, ResStatus.missing_credentials, missingMsg provider, none⟩, 0)) := by
  simp only [knownProviders, List.mem_cons, List.not_mem_nil, or_false] at hprov
  rcases hprov with rfl | rfl | rfl
  · constructor
    · unfold queryProvider catchRun
      rw [adapterRun_openai, adapterRun_openai]
      unfold queryOpenAI
      rw [h1, h2]
      rfl
    · intro henv
      rw [envKey_openai] at henv
      unfold queryProvider catchRun
      rw [adapterRun_openai]
      unfold queryOpenAI
      rw [h1]
      try dsimp only
      rcases henv with henv | henv <;> rw [henv] <;> rfl
  · constructor
    · unfold queryProvider catchRun
      rw [adapterRun_gemini, adapterRun_gemini]
      unfold queryGemini
      rw [h1, h2]
      rfl
    · intro henv
      rw [envKey_gemini] at henv
      unfold queryProvider catchRun
      rw [adapterRun_gemini]
      unfold queryGemini
      rw [h1]
      try dsimp only
      rcases henv with henv | henv <;> rw [henv] <;> rfl
  · constructor
    · unfold queryProvider catchRun
      rw [adapterRun_anthropic, adapterRun_anthropic]
      unfold queryAnthropic
      rw [h1, h2]
      rfl
    · intro henv
      rw [envKey_anthropic] at henv
      unfold queryProvider catchRun
      rw [adapterRun_anthropic]
      unfold queryAnthropic
      rw [h1]
      try dsimp only
      rcases henv with henv | henv <;> rw [henv] <;> rfl

theorem c10_empty_key_fallback_witness :
    ("anthropic" ∈ knownProviders) ∧
    (Json.obj [("apiKey", Json.str "")]).member "apiKey" = Except.ok (some (Json.str "")) ∧
    (Json.obj []).member "apiKey" = Except.ok none ∧
    (queryProvider "anthropic" "hi" (Json.obj [("apiKey", Json.str "")]) ⟨none, none, none⟩
        (FetchOutcome.reject "x") =
      queryProvider "anthropic" "hi" (Json.obj []) ⟨none, none, none⟩ (FetchOutcome.reject "x") ∧
    ((envKey "anthropic" ⟨none, none, none⟩ = none ∨
        envKey "anthropic" ⟨none, none, none⟩ = some "") →
      queryProvider "anthropic" "hi" (Json.obj [("apiKey", Json.str "")]) ⟨none, none, none⟩
          (FetchOutcome.reject "x") =
        (⟨"anthropic", ResStatus.missing_credentials, missingMsg "anthropic", none⟩, 0))) :=
  ⟨by decide, rfl, rfl,
    c10_empty_key_fallback "anthropic" "hi" _ _ _ _ (by decide) rfl rfl⟩

/-! ## Aggregator: response-mapping keys (claims C1, C9) -/

/-- The value of a member access that cannot throw. -/
def memberD (j : Json) (k : String) : Option Json :=
  match j.member k with
  | .ok v => v
  | .error _ => none

theorem member_ne_null_ok (j : Json) (k : String) (h : j ≠ Json.null) :
    ∃ v, j.member k = .ok v := by
  cases j
  case null => exact absurd rfl h
  all_goals simp only [Json.member]
  all_goals try split
  all_goals exact ⟨_, rfl⟩

/-- The fan-out over a list of string identifiers never throws, and each
result carries its requested identifier. -/
theorem runProviders_ok_of_str (ids : List String) (p : String) (config : Json) (env : Env)
    (f : String → FetchOutcome) (hc : config ≠ Json.null) :
    ∃ rs : List (NormalizedResult × Nat),
      runProviders (ids.map Json.str) p config env f = .ok rs ∧
      rs.map (fun x => x.1.provider) = ids := by
  induction ids with
  | nil => exact ⟨[], rfl, rfl⟩
  | cons id rest ih =>
    obtain ⟨rs, hrs, hmap⟩ := ih
    obtain ⟨v, hv⟩ := member_ne_null_ok config (Json.jsToString (Json.str id)) hc
    refine ⟨queryProvider id p (jsOrElse v (Json.obj [])) env (f id) :: rs, ?_, ?_⟩
    · show runProviders (Json.str id :: rest.map Json.str) p config env f = _
      unfold runProviders queryProviderJ
      rw [hv]
      try dsimp only
      rw [hrs]
    · simp [hmap, queryProvider_fst_provider]

/-- Key insertion as JS object update sees it. -/
def insertKey (ks : List String) (k : String) : List String :=
  if k ∈ ks then ks else ks ++ [k]

/-- The key list produced by folding JS object updates over a key list. -/
def keyFold (ks : List String) (l : List String) : List String :=
  l.foldl insertKey ks

theorem insertJS_map_fst (acc : List (String × NormalizedResult)) (k : String)
    (v : NormalizedResult) :
    (insertJS acc k v).map Prod.fst = insertKey (acc.map Prod.fst) k := by
  unfold insertJS insertKey
  by_cases h : k ∈ acc.map Prod.fst
  · rw [if_pos h, if_pos h, List.map_map]
    apply List.map_congr_left
    intro q hq
    by_cases hqk : q.1 = k <;> simp [hqk]
  · rw [if_neg h, if_neg h]
    simp

theorem assemble_map_fst (rs : List NormalizedResult) :
    (assemble rs).map Prod.fst = keyFold [] (rs.map NormalizedResult.provider) := by
  suffices h : ∀ acc, ((rs.foldl (fun acc r => insertJS acc r.provider r) acc).map Prod.fst) =
      keyFold (acc.map Prod.fst) (rs.map NormalizedResult.provider) by
    simpa using h []
  induction rs with
  | nil => intro acc; rfl
  | cons r rest ih =>
    intro acc
    show ((rest.foldl _ (insertJS acc r.provider r)).map Prod.fst) = _
    rw [ih (insertJS acc r.provider r), insertJS_map_fst]
    rfl

theorem keyFold_eq_append (l : List String) : ∀ ks, ∃ t, keyFold ks l = ks ++ t ∧
    t.Sublist l ∧ ∀ x ∈ t, x ∉ ks := by
  induction l with
  | nil => exact fun ks => ⟨[], by simp [keyFold], List.nil_sublist [], by simp⟩
  | cons k l ih =>
    intro ks
    by_cases hk : k ∈ ks
    · obtain ⟨t, h1, h2, h3⟩ := ih ks
      refine ⟨t, ?_, h2.cons k, h3⟩
      show keyFold (insertKey ks k) l = ks ++ t
      rw [insertKey, if_pos hk]
      exact h1
    · obtain ⟨t, h1, h2, h3⟩ := ih (ks ++ [k])
      refine ⟨k :: t, ?_, h2.cons₂ k, ?_⟩
      · show keyFold (insertKey ks k) l = ks ++ k :: t
        rw [insertKey, if_neg hk, h1]
        simp
      · intro x hx
        rcases List.mem_cons.mp hx with rfl | hx
        · exact hk
        · intro hxk
          exact h3 x hx (by simp [hxk])

theorem keyFold_nodup (l : List String) : ∀ ks, ks.Nodup → (keyFold ks l).Nodup := by
  induction l with
  | nil => exact fun ks h => h
  | cons k l ih =>
    intro ks h
    show (keyFold (insertKey ks k) l).Nodup
    apply ih
    unfold insertKey
    by_cases hk : k ∈ ks
    · rwa [if_pos hk]
    · rw [if_neg hk]
      rw [List.nodup_append]
      refine ⟨h, List.nodup_singleton k, ?_⟩
      intro a ha hak
      rw [List.mem_singleton] at hak
      exact hk (hak ▸ ha)

theorem keyFold_toFinset (l : List String) : ∀ ks,
    (keyFold ks l).toFinset = ks.toFinset ∪ l.toFinset := by
  induction l with
  | nil => intro ks; simp [keyFold]
  | cons k l ih =>
    intro ks
    show (keyFold (insertKey ks k) l).toFinset = _
    rw [ih (insertKey ks k)]
    unfold insertKey
    by_cases hk : k ∈ ks
    · rw [if_pos hk]
      ext x
      simp only [Finset.mem_union, List.mem_toFinset, List.mem_cons]
      constructor
      · rintro (h | h)
        · exact Or.inl h
        · exact Or.inr (Or.inr h)
      · rintro (h | rfl | h)
        · exact Or.inl h
        · exact Or.inl hk
        · exact Or.inr h
    · rw [if_neg hk]
      ext x
      simp only [Finset.mem_union, List.mem_toFinset, List.mem_append, List.mem_singleton,
        List.mem_cons]
      tauto

theorem keyFold_of_nodup_disjoint (l : List String) : ∀ ks, l.Nodup → (∀ x ∈ l, x ∉ ks) →
    keyFold ks l = ks ++ l := by
  induction l with
  | nil => intro ks _ _; simp [keyFold]
  | cons k l ih =>
    intro ks hnd hdisj
    show keyFold (insertKey ks k) l = ks ++ k :: l
    rw [insertKey, if_neg (hdisj k (by simp))]
    rw [ih (ks ++ [k]) (List.Nodup.of_cons hnd)]
    · simp
    · intro x hx
      simp only [List.mem_append, List.mem_singleton, not_or]
      refine ⟨hdisj x (by simp [hx]), ?_⟩
      intro hxk
      exact (List.nodup_cons.mp hnd).1 (hxk ▸ hx)

/-- Claim C1: for a well-formed query — non-empty string prompt, a
`providers` array of known identifier strings, and an object (or absent)
`config` — the handler replies 200 and the `responses` mapping has exactly
one entry per requested identifier: its keys are duplicate-free, their set
equals the set of requested identifiers, they appear in request order (a
sublist of the input list), and for a duplicate-free request they are
exactly the input list — regardless of every provider's network outcome. -/
theorem c1_response_keys (p : String) (hp : p ≠ "") (ids : List String)
    (hknown : ∀ id ∈ ids, id ∈ knownProviders) (cfg : Json) (hcfg : cfg ≠ Json.null)
    (env : Env) (fetchOut : String → FetchOutcome) :
    ∃ rs : List (String × NormalizedResult),
      handleQuery (Json.obj [("prompt", Json.str p), ("providers", Json.arr (ids.map Json.str)),
        ("config", cfg)]) env fetchOut = HttpResponse.ok p rs ∧
      (rs.map Prod.fst).Nodup ∧
      (rs.map Prod.fst).toFinset = ids.toFinset ∧
      (rs.map Prod.fst).Sublist ids ∧
      (ids.Nodup → rs.map Prod.fst = ids) := by
  obtain ⟨res, hres, hmap⟩ := runProviders_ok_of_str ids p cfg env fetchOut hcfg
  have hkeys : (assemble (res.map Prod.fst)).map Prod.fst = keyFold [] ids := by
    rw [assemble_map_fst, List.map_map]
    show keyFold [] (res.map (fun x => x.1.provider)) = keyFold [] ids
    rw [hmap]
  refine ⟨assemble (res.map Prod.fst), ?_, ?_, ?_, ?_, ?_⟩
  · have hm1 : (Json.obj [("prompt", Json.str p), ("providers", Json.arr (ids.map Json.str)),
        ("config", cfg)]).member "prompt" = .ok (some (Json.str p)) := rfl
    have hm2 : (Json.obj [("prompt", Json.str p), ("providers", Json.arr (ids.map Json.str)),
        ("config", cfg)]).member "providers" = .ok (some (Json.arr (ids.map Json.str))) := rfl
    have hm3 : (Json.obj [("prompt", Json.str p), ("providers", Json.arr (ids.map Json.str)),
        ("config", cfg)]).member "config" = .ok (some cfg) := rfl
    unfold handleQuery handleQueryE
    rw [hm1, hm2, hm3]
    try dsimp only
    rw [if_neg hp]
    try dsimp only
    rw [hres]
  · rw [hkeys]
    exact keyFold_nodup ids [] List.nodup_nil
  · rw [hkeys, keyFold_toFinset ids []]
    simp
  · rw [hkeys]
    obtain ⟨t, h1, h2, _⟩ := keyFold_eq_append ids []
    rw [h1]
    simpa using h2
  · intro hnd
    rw [hkeys, keyFold_of_nodup_disjoint ids [] hnd (by simp)]
    simp

theorem c1_response_keys_witness :
    (("hi" : String) ≠ "") ∧
    (∀ id ∈ ["openai", "gemini"], id ∈ knownProviders) ∧
    (Json.obj [] ≠ Json.null) ∧
    (∃ rs : List (String × NormalizedResult),
      handleQuery (Json.obj [("prompt", Json.str "hi"),
          ("providers", Json.arr (["openai", "gemini"].map Json.str)),
          ("config", Json.obj [])]) ⟨none, none, none⟩ (fun _ => FetchOutcome.reject "x") =
        HttpResponse.ok "hi" rs ∧
      (rs.map Prod.fst).Nodup ∧
      (rs.map Prod.fst).toFinset = (["openai", "gemini"] : List String).toFinset ∧
      (rs.map Prod.fst).Sublist ["openai", "gemini"] ∧
      ((["openai", "gemini"] : List String).Nodup → rs.map Prod.fst = ["openai", "gemini"])) :=
  ⟨by decide, by decide, fun h => Json.noConfusion h,
    c1_response_keys "hi" (by decide) ["openai", "gemini"] (by decide) (Json.obj [])
      (fun h => Json.noConfusion h) ⟨none, none, none⟩ (fun _ => FetchOutcome.reject "x")⟩

/-- Claim C9: a valid body with a non-empty string prompt and an explicit
empty `providers` array is not rejected: the handler replies 200 with an
empty `responses` mapping, invokes no adapter, and makes zero network
calls. -/
theorem c9_empty_providers (p : String) (hp : p ≠ "") (env : Env)
    (fetchOut : String → FetchOutcome) :
    handleQueryE (Json.obj [("prompt", Json.str p), ("providers", Json.arr [])]) env fetchOut =
      .ok (HttpResponse.ok p [], 0) ∧
    handleQuery (Json.obj [("prompt", Json.str p), ("providers", Json.arr [])]) env fetchOut =
      HttpResponse.ok p [] := by
  have h1 : handleQueryE (Json.obj [("prompt", Json.str p), ("providers", Json.arr [])]) env
      fetchOut = .ok (HttpResponse.ok p [], 0) := by
    have hm1 : (Json.obj [("prompt", Json.str p), ("providers", Json.arr [])]).member "prompt" =
        .ok (some (Json.str p)) := rfl
    have hm2 : (Json.obj [("prompt", Json.str p), ("providers", Json.arr [])]).member
        "providers" = .ok (some (Json.arr [])) := rfl
    have hm3 : (Json.obj [("prompt", Json.str p), ("providers", Json.arr [])]).member "config" =
        .ok none := rfl
    unfold handleQueryE
    rw [hm1, hm2, hm3]
    try dsimp only
    rw [if_neg hp]
    rfl
  refine ⟨h1, ?_⟩
  unfold handleQuery
  rw [h1]

theorem c9_empty_providers_witness :
    (("hi" : String) ≠ "") ∧
    (handleQueryE (Json.obj [("prompt", Json.str "hi"), ("providers", Json.arr [])])
        ⟨none, none, none⟩ (fun _ => FetchOutcome.reject "x") =
      .ok (HttpResponse.ok "hi" [], 0) ∧
    handleQuery (Json.obj [("prompt", Json.str "hi"), ("providers", Json.arr [])])
        ⟨none, none, none⟩ (fun _ => FetchOutcome.reject "x") =
      HttpResponse.ok "hi" []) :=
  ⟨by decide, c9_empty_providers "hi" (by decide) ⟨none, none, none⟩
    (fun _ => FetchOutcome.reject "x")⟩

/-! ## Claim C2: path arithmetic lemmas -/

theorem intercalateSlash_single (s : List Char) : intercalateSlash [s] = s := rfl

theorem intercalateSlash_cons₂ (s t : List Char) (R : List (List Char)) :
    intercalateSlash (s :: t :: R) = s ++ '/' :: intercalateSlash (t :: R) := rfl

theorem splitSlashAux_no_slash (cs : List Char) : ∀ acc, '/' ∉ acc →
    ∀ s ∈ splitSlashAux cs acc, '/' ∉ s := by
  induction cs with
  | nil =>
    intro acc hacc s hs
    simp [splitSlashAux] at hs
    subst hs
    simpa using hacc
  | cons c cs ih =>
    intro acc hacc s hs
    unfold splitSlashAux at hs
    split at hs
    next hc =>
      rcases List.mem_cons.mp hs with rfl | hs2
      · simpa using hacc
      · exact ih [] (by simp) s hs2
    next hc =>
      have hmem : '/' ∉ c :: acc := by
        intro hmem
        rcases List.mem_cons.mp hmem with h | h
        · exact hc h.symm
        · exact hacc h
      exact ih (c :: acc) hmem s hs

theorem splitSlash_no_slash (cs : List Char) : ∀ s ∈ splitSlash cs, '/' ∉ s :=
  splitSlashAux_no_slash cs [] (by simp)

theorem splitSlashAux_append (xs ys : List Char) : ∀ acc,
    splitSlashAux (xs ++ '/' :: ys) acc = splitSlashAux xs acc ++ splitSlash ys := by
  induction xs with
  | nil =>
    intro acc
    show splitSlashAux ('/' :: ys) acc = _
    unfold splitSlashAux
    rw [if_pos rfl]
    rfl
  | cons c xs ih =>
    intro acc
    show splitSlashAux (c :: (xs ++ '/' :: ys)) acc = splitSlashAux (c :: xs) acc ++ splitSlash ys
    unfold splitSlashAux
    by_cases hc : c = '/'
    · rw [if_pos hc, if_pos hc, ih []]
      rfl
    · rw [if_neg hc, if_neg hc, ih (c :: acc)]

theorem splitSlash_append (xs ys : List Char) :
    splitSlash (xs ++ '/' :: ys) = splitSlash xs ++ splitSlash ys :=
  splitSlashAux_append xs ys []

theorem splitSlash_cons_slash (cs : List Char) : splitSlash ('/' :: cs) = [] :: splitSlash cs := by
  show splitSlashAux ('/' :: cs) [] = _
  unfold splitSlashAux
  rw [if_pos rfl]
  rfl

theorem splitSlashAux_of_no_slash (s : List Char) : ∀ acc, '/' ∉ s →
    splitSlashAux s acc = [acc.reverse ++ s] := by
  induction s with
  | nil => intro acc _; simp [splitSlashAux]
  | cons c s ih =>
    intro acc h
    unfold splitSlashAux
    rw [if_neg (fun hc => h (by simp [hc]))]
    rw [ih (c :: acc) (fun hm => h (by simp [hm]))]
    simp

theorem splitSlash_intercalate (L : List (List Char)) (hne : L ≠ [])
    (h : ∀ s ∈ L, '/' ∉ s) : splitSlash (intercalateSlash L) = L := by
  induction L with
  | nil => exact absurd rfl hne
  | cons s L ih =>
    cases L with
    | nil =>
      show splitSlash (intercalateSlash [s]) = [s]
      rw [intercalateSlash_single]
      show splitSlashAux s [] = [s]
      rw [splitSlashAux_of_no_slash s [] (h s (by simp))]
      simp
    | cons s2 L2 =>
      rw [intercalateSlash_cons₂, splitSlash_append]
      have h1 : splitSlash s = [s] := by
        show splitSlashAux s [] = [s]
        rw [splitSlashAux_of_no_slash s [] (h s (by simp))]
        simp
      rw [h1, ih (by simp) (fun t ht => h t (by simp [ht]))]
      rfl

theorem intercalateSlash_append (A B : List (List Char)) (hA : A ≠ []) (hB : B ≠ []) :
    intercalateSlash (A ++ B) = intercalateSlash A ++ '/' :: intercalateSlash B := by
  induction A with
  | nil => exact absurd rfl hA
  | cons s A ih =>
    cases A with
    | nil =>
      cases B with
      | nil => exact absurd rfl hB
      | cons b B2 =>
        show intercalateSlash (s :: b :: B2) = intercalateSlash [s] ++ '/' :: intercalateSlash (b :: B2)
        rw [intercalateSlash_cons₂, intercalateSlash_single]
    | cons a2 A2 =>
      show intercalateSlash (s :: ((a2 :: A2) ++ B)) = _
      have hcons : (a2 :: A2) ++ B = a2 :: (A2 ++ B) := rfl
      rw [hcons, intercalateSlash_cons₂ s a2 (A2 ++ B), intercalateSlash_cons₂ s a2 A2]
      rw [show a2 :: (A2 ++ B) = (a2 :: A2) ++ B from rfl, ih (by simp)]
      simp

theorem intercalateSlash_ne_nil (A : List (List Char)) (hA : A ≠ []) (h : ∀ s ∈ A, s ≠ []) :
    intercalateSlash A ≠ [] := by
  cases A with
  | nil => exact absurd rfl hA
  | cons s A =>
    cases A with
    | nil =>
      rw [intercalateSlash_single]
      exact h s (by simp)
    | cons t R =>
      rw [intercalateSlash_cons₂]
      intro hcon
      rcases List.append_eq_nil.mp hcon with ⟨_, h2⟩
      exact List.cons_ne_nil _ _ h2

/-- The segments `path.normalize` keeps verbatim (empty and `.` dropped). -/
def keptSegs : List (List Char) → List (List Char)
  | [] => []
  | s :: rest => if skipSeg s then keptSegs rest else s :: keptSegs rest

theorem keptSegs_cons (s : List Char) (A : List (List Char)) :
    keptSegs (s :: A) = if skipSeg s then keptSegs A else s :: keptSegs A := rfl

theorem keptSegs_append (A B : List (List Char)) :
    keptSegs (A ++ B) = keptSegs A ++ keptSegs B := by
  induction A with
  | nil => rfl
  | cons s A ih =>
    rw [List.cons_append, keptSegs_cons, keptSegs_cons, ih]
    by_cases h : skipSeg s
    · rw [if_pos h, if_pos h]
    · rw [if_neg h, if_neg h]
      rfl

theorem keptSegs_of_not_skip (A : List (List Char)) (h : ∀ s ∈ A, ¬ skipSeg s) :
    keptSegs A = A := by
  induction A with
  | nil => rfl
  | cons s A ih =>
    rw [keptSegs_cons, if_neg (h s (by simp)), ih (fun t ht => h t (by simp [ht]))]

theorem keptSegs_cons_skip (s : List Char) (A : List (List Char)) (h : skipSeg s) :
    keptSegs (s :: A) = keptSegs A := by
  rw [keptSegs_cons, if_pos h]

theorem normStep_of_ne_dotdot (b : Bool) (stack : List (List Char)) (seg : List Char)
    (h : seg ≠ ['.', '.']) :
    normStep b stack seg = if skipSeg seg then stack else seg :: stack := by
  unfold normStep
  by_cases hsk : skipSeg seg
  · rw [if_pos hsk, if_pos hsk]
  · rw [if_neg hsk, if_neg hsk, if_neg h]

theorem foldl_normStep_keptSegs (b : Bool) (L : List (List Char)) :
    ∀ stack, (∀ s ∈ L, s ≠ ['.', '.']) →
    L.foldl (normStep b) stack = (keptSegs L).reverse ++ stack := by
  induction L with
  | nil => intro stack _; simp [keptSegs]
  | cons seg L ih =>
    intro stack hL
    show L.foldl (normStep b) (normStep b stack seg) = _
    rw [normStep_of_ne_dotdot b stack seg (hL seg (by simp)),
      ih _ (fun s hs => hL s (by simp [hs])), keptSegs_cons]
    by_cases hsk : skipSeg seg
    · rw [if_pos hsk, if_pos hsk]
    · rw [if_neg hsk, if_neg hsk]
      simp

/-- A stack segment of an absolute-path normalization: non-empty, not `.`,
not `..`, slash-free. -/
def goodSeg (s : List Char) : Prop :=
  s ≠ [] ∧ s ≠ ['.'] ∧ s ≠ ['.', '.'] ∧ '/' ∉ s

instance (s : List Char) : Decidable (goodSeg s) := by
  unfold goodSeg
  infer_instance

theorem normStep_good (stack : List (List Char)) (seg : List Char)
    (hst : ∀ s ∈ stack, goodSeg s) (hseg : '/' ∉ seg) :
    ∀ s ∈ normStep true stack seg, goodSeg s := by
  intro s hs
  unfold normStep at hs
  split at hs
  next => exact hst s hs
  next hskip =>
    split at hs
    next hdd =>
      cases stack with
      | nil =>
        simp at hs
      | cons top rest =>
        have htop := hst top (List.mem_cons_self top rest)
        dsimp only at hs
        rw [if_neg htop.2.2.1] at hs
        exact hst s (List.mem_cons_of_mem top hs)
    next hdd =>
      rcases List.mem_cons.mp hs with rfl | hs2
      · have hns : ¬ skipSeg s := hskip
        rw [skipSeg, not_or] at hns
        exact ⟨hns.1, hns.2, hdd, hseg⟩
      · exact hst s hs2

theorem foldl_normStep_good (L : List (List Char)) : ∀ stack, (∀ s ∈ stack, goodSeg s) →
    (∀ s ∈ L, '/' ∉ s) → ∀ s ∈ L.foldl (normStep true) stack, goodSeg s := by
  induction L with
  | nil => intro stack hst _; exact hst
  | cons seg L ih =>
    intro stack hst hL
    exact ih (normStep true stack seg) (normStep_good stack seg hst (hL seg (by simp)))
      (fun s hs => hL s (by simp [hs]))

/-- Normalizing an absolute path whose segments are already clean: the result
is `/` plus the kept segments, with the input's trailing slash preserved. -/
theorem posixNormalize_clean (q : String) (w : List Char) (K : List (List Char))
    (hq : q.toList = '/' :: w)
    (hsplit : splitSlash ('/' :: w) = [] :: K)
    (hKdd : ∀ s ∈ K, s ≠ ['.', '.']) :
    (posixNormalize q).toList =
      (if intercalateSlash (keptSegs K) = [] then ['/']
       else '/' :: (intercalateSlash (keptSegs K) ++
         (if ('/' :: w).getLast? = some '/' then ['/'] else []))) := by
  have hall : ∀ s ∈ ([] :: K : List (List Char)), s ≠ ['.', '.'] := by
    intro s hs
    rcases List.mem_cons.mp hs with rfl | hs
    · intro hcon
      exact List.noConfusion hcon
    · exact hKdd s hs
  unfold posixNormalize
  rw [hq]
  dsimp only
  rw [show (decide (('/' : Char) = '/')) = true from rfl]
  rw [hsplit, foldl_normStep_keptSegs true ([] :: K) [] hall,
    keptSegs_cons_skip [] K (Or.inl rfl), List.append_nil, List.reverse_reverse]
  by_cases hcore : intercalateSlash (keptSegs K) = []
  · rw [if_pos hcore, if_pos rfl, if_pos hcore]
    rfl
  · rw [if_neg hcore, if_pos rfl, if_neg hcore]
    by_cases htr : (('/' : Char) :: w).getLast? = some '/'
    · rw [if_pos htr]
      rfl
    · rw [if_neg htr]
      rfl

/-- Normalizing any absolute path yields `/`, or `/` followed by clean
segments, possibly with a trailing slash. -/
theorem posixNormalize_abs (p : String) (rest : List Char) (hp : p.toList = '/' :: rest) :
    ∃ st : List (List Char),
      (∀ s ∈ st, goodSeg s) ∧
      ((posixNormalize p).toList = ['/'] ∨
        (st ≠ [] ∧
          ((posixNormalize p).toList = '/' :: intercalateSlash st.reverse ∨
           (posixNormalize p).toList = '/' :: (intercalateSlash st.reverse ++ ['/'])))) := by
  refine ⟨(splitSlash ('/' :: rest)).foldl (normStep true) [],
    foldl_normStep_good _ [] (by simp) (splitSlash_no_slash _), ?_⟩
  unfold posixNormalize
  rw [hp]
  dsimp only
  rw [show (decide (('/' : Char) = '/')) = true from rfl]
  by_cases hcore :
      intercalateSlash (((splitSlash ('/' :: rest)).foldl (normStep true) []).reverse) = []
  · rw [if_pos hcore, if_pos rfl]
    exact Or.inl rfl
  · rw [if_neg hcore, if_pos rfl]
    have hstne : (splitSlash ('/' :: rest)).foldl (normStep true) [] ≠ [] := by
      intro h0
      apply hcore
      rw [h0]
      rfl
    refine Or.inr ⟨hstne, ?_⟩
    by_cases htr : (('/' : Char) :: rest).getLast? = some '/'
    · rw [if_pos htr]
      exact Or.inr rfl
    · rw [if_neg htr]
      left
      show '/' :: (intercalateSlash (((splitSlash ('/' :: rest)).foldl
        (normStep true) []).reverse) ++ []) = _
      rw [List.append_nil]

/-- The single leading `../` strip is a no-op on a path that starts with a
slash. -/
theorem stripDotDot_of_slash (s : String) (h : ∃ r, s.toList = '/' :: r) :
    stripDotDot s = s := by
  obtain ⟨r, hr⟩ := h
  unfold stripDotDot
  split
  next heq =>
    rw [hr] at heq
    simp at heq
  next heq =>
    rw [hr] at heq
    simp at heq
  next => rfl

/-- Joining a clean absolute root with a normalized absolute suffix stays
under the root: the result is the root, a slash, and clean tail segments. -/
theorem normalize_concat_tail (q : String) (w : List Char) (pdSegs B K : List (List Char))
    (pd : String)
    (hpd : pd.toList = '/' :: intercalateSlash pdSegs)
    (hne : pdSegs ≠ []) (hsegs : ∀ s ∈ pdSegs, goodSeg s)
    (hB : ∀ s ∈ B, goodSeg s)
    (hq : q.toList = '/' :: w)
    (hsplit : splitSlash ('/' :: w) = [] :: K)
    (hkept : keptSegs K = pdSegs ++ B)
    (hKdd : ∀ s ∈ K, s ≠ ['.', '.'])
    (htrB : B = [] → ('/' :: w).getLast? = some '/') :
    ∃ tail : List (List Char),
      (posixNormalize q).toList = pd.toList ++ '/' :: intercalateSlash tail ∧
      ∀ s ∈ tail, s ≠ ['.', '.'] ∧ '/' ∉ s := by
  rw [posixNormalize_clean q w K hq hsplit hKdd, hkept]
  by_cases hB0 : B = []
  · have htr := htrB hB0
    subst hB0
    rw [List.append_nil]
    rw [if_neg (intercalateSlash_ne_nil pdSegs hne (fun s hs => (hsegs s hs).1)), if_pos htr]
    refine ⟨[[]], ?_, ?_⟩
    · rw [hpd, intercalateSlash_single]
      simp
    · intro s hs
      rw [List.mem_singleton] at hs
      subst hs
      exact ⟨fun hcon => List.noConfusion hcon, by simp⟩
  · have hPBne : pdSegs ++ B ≠ [] := fun hcon => hne (List.append_eq_nil.mp hcon).1
    have hPBgood : ∀ s ∈ pdSegs ++ B, goodSeg s := by
      intro s hs
      rcases List.mem_append.mp hs with hx | hx
      · exact hsegs s hx
      · exact hB s hx
    rw [if_neg (intercalateSlash_ne_nil _ hPBne (fun s hs => (hPBgood s hs).1))]
    rw [intercalateSlash_append pdSegs B hne hB0]
    by_cases htr : ('/' :: w).getLast? = some '/'
    · rw [if_pos htr]
      refine ⟨B ++ [[]], ?_, ?_⟩
      · rw [intercalateSlash_append B [[]] hB0 (by simp), intercalateSlash_single, hpd]
        simp
      · intro s hs
        rcases List.mem_append.mp hs with hx | hx
        · exact ⟨(hB s hx).2.2.1, (hB s hx).2.2.2⟩
        · rw [List.mem_singleton] at hx
          subst hx
          exact ⟨fun hcon => List.noConfusion hcon, by simp⟩
    · rw [if_neg htr]
      refine ⟨B, ?_, ?_⟩
      · rw [hpd]
        simp
      · intro s hs
        exact ⟨(hB s hs).2.2.1, (hB s hs).2.2.2⟩

/-- Claim C2: for every request path produced by the URL parser (it always
starts with `/`, including traversal attempts like `/../etc/passwd`), the
resolved file path stays under the assets root: it is the root directory,
a slash, and slash-free tail segments none of which is `..`; and when the
filesystem has no file at that (in-root) path, `serveStatic` answers the
not-found (404) outcome.  The root is any absolute normalized directory
(non-empty, `.`/`..`-free, slash-free segments), as `path.join(__dirname,
'public')` produces. -/
theorem c2_traversal_safe (pd rp : String) (pdSegs : List (List Char))
    (hpd : pd.toList = '/' :: intercalateSlash pdSegs)
    (hne : pdSegs ≠ [])
    (hsegs : ∀ s ∈ pdSegs, goodSeg s)
    (hrp : ∃ r, rp.toList = '/' :: r) :
    (∃ tail : List (List Char),
      (resolveStatic pd rp).toList = pd.toList ++ '/' :: intercalateSlash tail ∧
      ∀ s ∈ tail, s ≠ ['.', '.'] ∧ '/' ∉ s) ∧
    (∀ fsFiles : String → Option String, fsFiles (resolveStatic pd rp) = none →
      serveStatic fsFiles pd rp = StaticOutcome.notFound) := by
  have hserve : ∀ fsFiles : String → Option String, fsFiles (resolveStatic pd rp) = none →
      serveStatic fsFiles pd rp = StaticOutcome.notFound := by
    intro fsFiles hf
    unfold serveStatic
    rw [hf]
  refine ⟨?_, hserve⟩
  obtain ⟨rr, hrr⟩ := hrp
  have hres0 : resolveStatic pd rp =
      posixJoin pd (stripDotDot (posixNormalize (if rp = "/" then "/index.html" else rp))) := rfl
  rw [hres0]
  have habs : ∃ r0, (if rp = "/" then "/index.html" else rp).toList = '/' :: r0 := by
    by_cases h : rp = "/"
    · rw [if_pos h]
      exact ⟨['i', 'n', 'd', 'e', 'x', '.', 'h', 't', 'm', 'l'], rfl⟩
    · rw [if_neg h]
      exact ⟨rr, hrr⟩
  obtain ⟨r0, hr0⟩ := habs
  generalize hgen : (if rp = "/" then "/index.html" else rp) = relp at hr0 ⊢
  obtain ⟨st, hstgood, hshape⟩ := posixNormalize_abs relp r0 hr0
  have hstrip : stripDotDot (posixNormalize relp) = posixNormalize relp := by
    apply stripDotDot_of_slash
    rcases hshape with h | ⟨_, h | h⟩
    exacts [⟨[], h⟩, ⟨_, h⟩, ⟨_, h⟩]
  rw [hstrip]
  have hn1ne : (posixNormalize relp).toList ≠ [] := by
    rcases hshape with h | ⟨_, h | h⟩ <;> rw [h] <;> exact List.cons_ne_nil _ _
  have hpdne : pd.toList ≠ [] := by
    rw [hpd]
    exact List.cons_ne_nil _ _
  have hjoin : posixJoin pd (posixNormalize relp) =
      posixNormalize (String.mk (pd.toList ++ '/' :: (posixNormalize relp).toList)) := by
    unfold posixJoin
    rw [if_neg (fun hc => hpdne hc.1), if_neg hpdne, if_neg hn1ne]
  rw [hjoin]
  have hpd_noskip : ∀ s ∈ pdSegs, ¬ skipSeg s := by
    intro s hs hsk
    rcases hsk with h1 | h1
    · exact (hsegs s hs).1 h1
    · exact (hsegs s hs).2.1 h1
  have hsplit_pd : splitSlash (intercalateSlash pdSegs) = pdSegs :=
    splitSlash_intercalate pdSegs hne (fun s hs => (hsegs s hs).2.2.2)
  have hq : (String.mk (pd.toList ++ '/' :: (posixNormalize relp).toList)).toList =
      '/' :: (intercalateSlash pdSegs ++ '/' :: (posixNormalize relp).toList) := by
    show pd.toList ++ '/' :: (posixNormalize relp).toList = _
    rw [hpd]
    rfl
  have hsplitw : splitSlash
        ('/' :: (intercalateSlash pdSegs ++ '/' :: (posixNormalize relp).toList)) =
      [] :: (pdSegs ++ splitSlash (posixNormalize relp).toList) := by
    rw [splitSlash_cons_slash, splitSlash_append, hsplit_pd]
  rcases hshape with h | ⟨hstne0, h | h⟩
  · have hS : splitSlash (posixNormalize relp).toList = [[], []] := by
      rw [h]
      rfl
    have hkept : keptSegs (pdSegs ++ splitSlash (posixNormalize relp).toList) =
        pdSegs ++ [] := by
      rw [hS, keptSegs_append, keptSegs_of_not_skip pdSegs hpd_noskip,
        keptSegs_cons_skip _ _ (Or.inl rfl), keptSegs_cons_skip _ _ (Or.inl rfl)]
      rfl
    have hKdd : ∀ s ∈ pdSegs ++ splitSlash (posixNormalize relp).toList, s ≠ ['.', '.'] := by
      rw [hS]
      intro s hs
      rcases List.mem_append.mp hs with hx | hx
      · exact (hsegs s hx).2.2.1
      · simp at hx
        subst hx
        exact fun hcon => List.noConfusion hcon
    have htrB : (([] : List (List Char)) = []) →
        (('/' : Char) :: (intercalateSlash pdSegs ++ '/' :: (posixNormalize relp).toList)).getLast?
          = some '/' := by
      intro _
      rw [h]
      rw [show (('/' : Char) :: (intercalateSlash pdSegs ++ '/' :: ['/'])) =
        ('/' :: intercalateSlash pdSegs) ++ '/' :: ['/'] from rfl]
      rw [List.getLast?_append_cons]
      rfl
    exact normalize_concat_tail _ _ pdSegs [] _ pd hpd hne hsegs (by simp) hq hsplitw hkept
      hKdd htrB
  · have hstrev_ne : st.reverse ≠ [] := by
      simpa using hstne0
    have hstgood' : ∀ s ∈ st.reverse, goodSeg s := fun s hs => hstgood s (List.mem_reverse.mp hs)
    have hst_noskip : ∀ s ∈ st.reverse, ¬ skipSeg s := by
      intro s hs hsk
      rcases hsk with h1 | h1
      · exact (hstgood' s hs).1 h1
      · exact (hstgood' s hs).2.1 h1
    have hS : splitSlash (posixNormalize relp).toList = [] :: st.reverse := by
      rw [h, splitSlash_cons_slash,
        splitSlash_intercalate st.reverse hstrev_ne (fun s hs => (hstgood' s hs).2.2.2)]
    have hkept : keptSegs (pdSegs ++ splitSlash (posixNormalize relp).toList) =
        pdSegs ++ st.reverse := by
      rw [hS, keptSegs_append, keptSegs_of_not_skip pdSegs hpd_noskip,
        keptSegs_cons_skip _ _ (Or.inl rfl), keptSegs_of_not_skip st.reverse hst_noskip]
    have hKdd : ∀ s ∈ pdSegs ++ splitSlash (posixNormalize relp).toList, s ≠ ['.', '.'] := by
      rw [hS]
      intro s hs
      rcases List.mem_append.mp hs with hx | hx
      · exact (hsegs s hx).2.2.1
      · rcases List.mem_cons.mp hx with rfl | hx
        · exact fun hcon => List.noConfusion hcon
        · exact (hstgood' s hx).2.2.1
    exact normalize_concat_tail _ _ pdSegs st.reverse _ pd hpd hne hsegs hstgood' hq hsplitw
      hkept hKdd (fun hcon => absurd hcon hstrev_ne)
  · have hstrev_ne : st.reverse ≠ [] := by
      simpa using hstne0
    have hstgood' : ∀ s ∈ st.reverse, goodSeg s := fun s hs => hstgood s (List.mem_reverse.mp hs)
    have hst_noskip : ∀ s ∈ st.reverse, ¬ skipSeg s := by
      intro s hs hsk
      rcases hsk with h1 | h1
      · exact (hstgood' s hs).1 h1
      · exact (hstgood' s hs).2.1 h1
    have hS : splitSlash (posixNormalize relp).toList = [] :: (st.reverse ++ [[]]) := by
      rw [h, splitSlash_cons_slash]
      rw [show intercalateSlash st.reverse ++ ['/'] =
        intercalateSlash st.reverse ++ '/' :: [] from rfl]
      rw [splitSlash_append,
        splitSlash_intercalate st.reverse hstrev_ne (fun s hs => (hstgood' s hs).2.2.2)]
      rfl
    have hkept : keptSegs (pdSegs ++ splitSlash (posixNormalize relp).toList) =
        pdSegs ++ st.reverse := by
      rw [hS, keptSegs_append, keptSegs_of_not_skip pdSegs hpd_noskip,
        keptSegs_cons_skip _ _ (Or.inl rfl), keptSegs_append,
        keptSegs_of_not_skip st.reverse hst_noskip,
        keptSegs_cons_skip _ _ (Or.inl rfl)]
      simp [keptSegs]
    have hKdd : ∀ s ∈ pdSegs ++ splitSlash (posixNormalize relp).toList, s ≠ ['.', '.'] := by
      rw [hS]
      intro s hs
      rcases List.mem_append.mp hs with hx | hx
      · exact (hsegs s hx).2.2.1
      · rcases List.mem_cons.mp hx with rfl | hx
        · exact fun hcon => List.noConfusion hcon
        · rcases List.mem_append.mp hx with hy | hy
          · exact (hstgood' s hy).2.2.1
          · rw [List.mem_singleton] at hy
            subst hy
            exact fun hcon => List.noConfusion hcon
    exact normalize_concat_tail _ _ pdSegs st.reverse _ pd hpd hne hsegs hstgood' hq hsplitw
      hkept hKdd (fun hcon => absurd hcon hstrev_ne)

theorem c2_traversal_safe_witness :
    ("/srv/public".toList =
      '/' :: intercalateSlash [['s', 'r', 'v'], ['p', 'u', 'b', 'l', 'i', 'c']]) ∧
    (([['s', 'r', 'v'], ['p', 'u', 'b', 'l', 'i', 'c']] : List (List Char)) ≠ []) ∧
    (∀ s ∈ ([['s', 'r', 'v'], ['p', 'u', 'b', 'l', 'i', 'c']] : List (List Char)), goodSeg s) ∧
    (∃ r, "/../etc/passwd".toList = '/' :: r) ∧
    ((∃ tail : List (List Char),
      (resolveStatic "/srv/public" "/../etc/passwd").toList =
        "/srv/public".toList ++ '/' :: intercalateSlash tail ∧
      ∀ s ∈ tail, s ≠ ['.', '.'] ∧ '/' ∉ s) ∧
    (∀ fsFiles : String → Option String,
      fsFiles (resolveStatic "/srv/public" "/../etc/passwd") = none →
      serveStatic fsFiles "/srv/public" "/../etc/passwd" = StaticOutcome.notFound)) :=
  ⟨rfl, by decide, by decide,
    ⟨['.', '.', '/', 'e', 't', 'c', '/', 'p', 'a', 's', 's', 'w', 'd'], rfl⟩,
    c2_traversal_safe "/srv/public" "/../etc/passwd"
      [['s', 'r', 'v'], ['p', 'u', 'b', 'l', 'i', 'c']] rfl (by decide) (by decide)
      ⟨['.', '.', '/', 'e', 't', 'c', '/', 'p', 'a', 's', 's', 'w', 'd'], rfl⟩⟩
